import Mathlib

/-!
Shallow embedding of the MongoDB-Atlas microservices sample
(`todos_service_lambda_template.py`, `semantic_search_lambda_template.py`,
`test_api_template.py`, `mdb_import_template.py`).

JSON values are modelled by an inductive type; Python dictionaries are ordered
association lists (insertion order, unique keys), matching `json.loads` /
`json.dumps` round-trips and `csv.DictReader` rows.  Python exceptions are
modelled by `Except String`; the carried string is the message used by
`str(e)`.  Every outbound network call (MongoDB Data API, Bedrock
`invoke_model`) is an oracle function supplied as a parameter, and each
handler additionally returns the list of remote calls it issued, so that
"no remote call is made" is expressible as an empty call list.
-/

/-- A JSON value.  Numbers are rationals: the scripts do no numeric
computation, only literal construction and comparisons with zero. -/
inductive Json where
  | null
  | bool (b : Bool)
  | num (q : Rat)
  | str (s : String)
  | arr (xs : List Json)
  | obj (kvs : List (String × Json))

namespace Json

/-- First binding of a key in an association list (Python dicts keep keys
unique, so the first binding is the only one). -/
def lookupKey : List (String × Json) → String → Option Json
  | [], _ => none
  | (k1, v1) :: rest, k => if k1 = k then some v1 else lookupKey rest k

/-- Python truthiness of a JSON value (`bool(x)`): None, False, zero, the
empty string, the empty list and the empty dict are falsy. -/
def truthy : Json → Bool
  | .null => false
  | .bool b => b
  | .num q => decide (q ≠ 0)
  | .str s => !(s == "")
  | .arr xs => !xs.isEmpty
  | .obj kvs => !kvs.isEmpty

/-- Python `d.get(k)`: the value, or None when absent; raises
AttributeError when the receiver is not a dict. -/
def get (j : Json) (k : String) : Except String (Option Json) :=
  match j with
  | .obj kvs => .ok (lookupKey kvs k)
  | _ => .error "AttributeError: no attribute get"

/-- Python `d.get(k, d0)`. -/
def getD (j : Json) (k : String) (d0 : Json) : Except String Json :=
  match j with
  | .obj kvs => .ok ((lookupKey kvs k).getD d0)
  | _ => .error "AttributeError: no attribute get"

/-- Python subscript `d[k]` for a string key: KeyError when the key is
absent from a dict, TypeError on anything that is not a dict. -/
def index (j : Json) (k : String) : Except String Json :=
  match j with
  | .obj kvs =>
    match lookupKey kvs k with
    | some v => .ok v
    | none => .error "KeyError"
  | _ => .error "TypeError: not subscriptable"

/-- Substring containment on character lists (Python `sub in s` for
strings). -/
def subListOf : List Char → List Char → Bool
  | needle, [] => needle.isEmpty
  | needle, c :: rest => List.isPrefixOf needle (c :: rest) || subListOf needle rest

/-- Python membership `k in j` for a string `k`: key test on dicts,
element-wise string equality on lists, substring test on strings,
TypeError otherwise. -/
def hasMember (k : String) (j : Json) : Except String Bool :=
  match j with
  | .obj kvs => .ok (kvs.any fun p => p.1 == k)
  | .arr xs => .ok (xs.any fun x => match x with | .str s => s == k | _ => false)
  | .str s => .ok (subListOf k.data s.data)
  | _ => .error "TypeError: argument is not iterable"

/-- Python dict assignment `d[k] = v`: replace the existing binding of `k`
in place, or append a fresh binding at the end. -/
def setKey : List (String × Json) → String → Json → List (String × Json)
  | [], k, v => [(k, v)]
  | (k1, v1) :: rest, k, v =>
    if k1 = k then (k, v) :: rest else (k1, v1) :: setKey rest k v

end Json

/-- Python `x or d0` for an optional JSON value (used by `description or ""`
in `create_todo`): the value when truthy, the default otherwise. -/
def pyOr (x : Option Json) (d0 : Json) : Json :=
  match x with
  | some v => if v.truthy then v else d0
  | none => d0

/-- Truthiness of a value that may be Python None. -/
def truthyOpt : Option Json → Bool
  | some v => v.truthy
  | none => false

/-- Python `x > 0` on a JSON value: numeric comparison for numbers,
booleans behave as the integers 0 and 1, everything else raises
TypeError. -/
def gtZero (j : Json) : Except String Bool :=
  match j with
  | .num q => .ok (decide (0 < q))
  | .bool b => .ok b
  | _ => .error "TypeError: not orderable against int"

/-- Python `s.startswith(p0)`, computed on the character lists. -/
def pyStartsWith (s p0 : String) : Bool := List.isPrefixOf p0.data s.data

/-- The slice of a Lambda proxy event that the handlers read.  `body` is
the outcome of `json.loads` applied to the raw body string; an event with
no body key is modelled by `Except.ok (Json.obj [])`, mirroring the
default string in `json.loads(event.get('body', '...'))` (the default is
the two-character text for an empty JSON object). -/
structure Event where
  httpMethod : Option Json
  pathParameters : Option Json
  body : Except String Json

/-- A handler response: status code plus the JSON value passed to
`json.dumps`.  The headers dict is the same constant on every branch of
both handlers and carries no information. -/
structure Response where
  statusCode : Nat
  body : Json

/-- The body `json.dumps(\x7b'error': msg\x7d)` used by every error branch. -/
def jsonError (msg : String) : Json := Json.obj [("error", Json.str msg)]

/-- `path_parameters = event.get('pathParameters') or` the empty dict. -/
def pathParams (e : Event) : Json :=
  match e.pathParameters with
  | some j => if j.truthy then j else Json.obj []
  | none => Json.obj []

/-- Oracle for the MongoDB Data API of the todos service: endpoint name and
payload to outcome (`Except.error` models a raised exception, covering
HTTPError re-raises, transport failures and decode failures alike). -/
abbrev MongoApi := String → Json → Except String Json

/-- One recorded outbound call of the todos service. -/
abbrev Call := String × Json

/-- `call_mongodb_api(endpoint, data)`: exactly one signed POST per
invocation; modelled as the oracle outcome plus the recorded call. -/
def call_mongodb_api (api : MongoApi) (endpoint : String) (data : Json) :
    List Call × Except String Json :=
  ([(endpoint, data)], api endpoint data)

/-- `list_todos()`. -/
def list_todos (api : MongoApi) : List Call × Except String Json :=
  let data := Json.obj [("database", Json.str "todos"), ("collection", Json.str "items"),
    ("filter", Json.obj [])]
  let p := call_mongodb_api api "find" data
  (p.1, match p.2 with
    | .ok result => result.getD "documents" (Json.arr [])
    | .error e => .error e)

/-- `get_todo_by_id(todo_id)`. -/
def get_todo_by_id (api : MongoApi) (todoId : Json) :
    List Call × Except String (Option Json) :=
  let data := Json.obj [("database", Json.str "todos"), ("collection", Json.str "items"),
    ("filter", Json.obj [("_id", todoId)])]
  let p := call_mongodb_api api "findOne" data
  (p.1, match p.2 with
    | .ok result => result.get "document"
    | .error e => .error e)

/-- The insertOne payload built by `create_todo`: `now` is the value of
`datetime.utcnow().isoformat()` taken once at the start of the call. -/
def create_data (now : String) (title : Json) (description : Option Json) : Json :=
  Json.obj [("database", Json.str "todos"), ("collection", Json.str "items"),
    ("document", Json.obj [("title", title),
      ("description", pyOr description (Json.str "")),
      ("completed", Json.bool false),
      ("created_at", Json.str now),
      ("updated_at", Json.str now)])]

/-- `create_todo(title, description)`. -/
def create_todo (api : MongoApi) (now : String) (title : Json)
    (description : Option Json) : List Call × Except String Json :=
  call_mongodb_api api "insertOne" (create_data now title description)

/-- The updateOne payload built by `update_todo`: the caller-supplied
updates dict with `updated_at` assigned on top. -/
def update_data (now : String) (todoId : Json) (updates : List (String × Json)) : Json :=
  Json.obj [("database", Json.str "todos"), ("collection", Json.str "items"),
    ("filter", Json.obj [("_id", todoId)]),
    ("update", Json.obj [("$set", Json.obj (Json.setKey updates "updated_at" (Json.str now)))])]

/-- `update_todo(todo_id, updates)`. -/
def update_todo (api : MongoApi) (now : String) (todoId : Json)
    (updates : List (String × Json)) : List Call × Except String Json :=
  call_mongodb_api api "updateOne" (update_data now todoId updates)

/-- The deleteOne payload built by `delete_todo`. -/
def delete_data (todoId : Json) : Json :=
  Json.obj [("database", Json.str "todos"), ("collection", Json.str "items"),
    ("filter", Json.obj [("_id", todoId)])]

/-- `delete_todo(todo_id)`. -/
def delete_todo (api : MongoApi) (todoId : Json) : List Call × Except String Json :=
  call_mongodb_api api "deleteOne" (delete_data todoId)

/-- GET with a truthy id: fetch one todo and map it to 200 or 404. -/
def todosGetOne (api : MongoApi) (tid : Json) : List Call × Except String Response :=
  let p := get_todo_by_id api tid
  (p.1, match p.2 with
    | .error e => .error e
    | .ok todo =>
      match todo with
      | some t => if t.truthy then .ok ⟨200, t⟩ else .ok ⟨404, jsonError "Todo not found"⟩
      | none => .ok ⟨404, jsonError "Todo not found"⟩)

/-- GET without an id: list all todos. -/
def todosListAll (api : MongoApi) : List Call × Except String Response :=
  let p := list_todos api
  (p.1, match p.2 with
    | .error e => .error e
    | .ok todos => .ok ⟨200, Json.obj [("todos", todos)]⟩)

/-- The GET branch of the todos `lambda_handler`. -/
def todosGet (api : MongoApi) (pp : Json) : List Call × Except String Response :=
  match pp.get "id" with
  | .error e => ([], .error e)
  | .ok (some tid) => if tid.truthy then todosGetOne api tid else todosListAll api
  | .ok none => todosListAll api

/-- The POST branch of the todos `lambda_handler`. -/
def todosPost (api : MongoApi) (now : String) (bodyE : Except String Json) :
    List Call × Except String Response :=
  match bodyE with
  | .error e => ([], .error e)
  | .ok body =>
    match body.get "title" with
    | .error e => ([], .error e)
    | .ok title =>
      match body.get "description" with
      | .error e => ([], .error e)
      | .ok description =>
        match title with
        | some t =>
          if t.truthy then
            let p := create_todo api now t description
            (p.1, match p.2 with
              | .error e => .error e
              | .ok result => .ok ⟨201, result⟩)
          else ([], .ok ⟨400, jsonError "title is required"⟩)
        | none => ([], .ok ⟨400, jsonError "title is required"⟩)

/-- One `if k in body: updates[k] = body[k]` step of the PUT branch.  The
key is fresh each time, so the dict assignment is an append. -/
def addUpdateField (body : Json) (k : String) (updates : List (String × Json)) :
    Except String (List (String × Json)) :=
  match Json.hasMember k body with
  | .error e => .error e
  | .ok true =>
    match body.index k with
    | .error e => .error e
    | .ok v => .ok (updates ++ [(k, v)])
  | .ok false => .ok updates

/-- The updates dict accumulated by the PUT branch, in source order:
title, description, completed. -/
def buildUpdates (body : Json) : Except String (List (String × Json)) :=
  match addUpdateField body "title" [] with
  | .error e => .error e
  | .ok u1 =>
    match addUpdateField body "description" u1 with
    | .error e => .error e
    | .ok u2 => addUpdateField body "completed" u2

/-- The PUT branch of the todos `lambda_handler`. -/
def todosPut (api : MongoApi) (now : String) (pp : Json) (bodyE : Except String Json) :
    List Call × Except String Response :=
  match pp.get "id" with
  | .error e => ([], .error e)
  | .ok none => ([], .ok ⟨400, jsonError "todo id is required"⟩)
  | .ok (some tid) =>
    if tid.truthy then
      match bodyE with
      | .error e => ([], .error e)
      | .ok body =>
        match buildUpdates body with
        | .error e => ([], .error e)
        | .ok updates =>
          match updates with
          | [] => ([], .ok ⟨400, jsonError "No fields to update"⟩)
          | _ =>
            let p := update_todo api now tid updates
            (p.1, match p.2 with
              | .error e => .error e
              | .ok result =>
                match result.getD "modifiedCount" (Json.num 0) with
                | .error e => .error e
                | .ok mc =>
                  match gtZero mc with
                  | .error e => .error e
                  | .ok true => .ok ⟨200, result⟩
                  | .ok false => .ok ⟨404, jsonError "Todo not found"⟩)
    else ([], .ok ⟨400, jsonError "todo id is required"⟩)

/-- The DELETE branch of the todos `lambda_handler`. -/
def todosDelete (api : MongoApi) (pp : Json) : List Call × Except String Response :=
  match pp.get "id" with
  | .error e => ([], .error e)
  | .ok none => ([], .ok ⟨400, jsonError "todo id is required"⟩)
  | .ok (some tid) =>
    if tid.truthy then
      let p := delete_todo api tid
      (p.1, match p.2 with
        | .error e => .error e
        | .ok result =>
          match result.getD "deletedCount" (Json.num 0) with
          | .error e => .error e
          | .ok dc =>
            match gtZero dc with
            | .error e => .error e
            | .ok true => .ok ⟨200, Json.obj [("message", Json.str "Todo deleted successfully")]⟩
            | .ok false => .ok ⟨404, jsonError "Todo not found"⟩)
    else ([], .ok ⟨400, jsonError "todo id is required"⟩)

/-- The dispatch inside the outer try of the todos `lambda_handler`:
`Except.error` is an exception escaping to the outer handler. -/
def todosCore (api : MongoApi) (now : String) (e : Event) :
    List Call × Except String Response :=
  match e.httpMethod with
  | some (.str "GET") => todosGet api (pathParams e)
  | some (.str "POST") => todosPost api now e.body
  | some (.str "PUT") => todosPut api now (pathParams e) e.body
  | some (.str "DELETE") => todosDelete api (pathParams e)
  | _ => ([], .ok ⟨405, jsonError "Method not allowed"⟩)

/-- `lambda_handler` of the todos service: the outer except branch turns
any exception into a 500 whose body carries the error text plus a details
field holding `str(e)`. -/
def todos_lambda_handler (api : MongoApi) (now : String) (e : Event) :
    List Call × Response :=
  let p := todosCore api now e
  (p.1, match p.2 with
    | .ok resp => resp
    | .error msg =>
      ⟨500, Json.obj [("error", Json.str "Internal server error"), ("details", Json.str msg)]⟩)

/-- Oracle for one Bedrock Titan embedding invocation: input text to the
decoded JSON response body (`invoke_model` followed by reading and
`json.loads`-decoding the body); `Except.error` models any raised
exception along that chain. -/
abbrev BedrockApi := Json → Except String Json

/-- One recorded outbound call of the semantic-search handler. -/
inductive SCall where
  | embedModel (inputText : Json)
  | mongoAggregate (data : Json)

/-- Oracle for the aggregate endpoint of the MongoDB Data API used by the
semantic-search handler: payload to outcome. -/
abbrev SearchMongo := Json → Except String Json

/-- The shared inner logic of both `generate_embedding` variants: decode
the model response and take its `embedding` item.  The Lambda variant
returns this outcome unchanged (its except branch re-raises); the test
script variant substitutes a placeholder on any failure. -/
def generate_embedding_result (bedrock : BedrockApi) (text : Json) : Except String Json :=
  match bedrock text with
  | .error e => .error e
  | .ok responseBody => responseBody.index "embedding"

/-- The example vector `[0.1, 0.2, 0.3] + [0.0] * 1533` of
`test_api_template.py` (decimals as exact rationals). -/
def fallbackVector : List Rat := [mkRat 1 10, mkRat 2 10, mkRat 3 10] ++ List.replicate 1533 0

/-- `generate_embedding` of `test_api_template.py`: on any failure inside
the try block it falls back to the example vector. -/
def generate_embedding_test (bedrock : BedrockApi) (text : Json) : Json :=
  match generate_embedding_result bedrock text with
  | .ok v => v
  | .error _ => Json.arr (fallbackVector.map Json.num)

/-- `call_mongodb_api(pipeline)` of the semantic-search Lambda: wraps the
pipeline into the fixed travel/asia aggregate payload and issues one
signed POST. -/
def search_call_mongodb_api (db : SearchMongo) (pipeline : Json) :
    List SCall × Except String Json :=
  let data := Json.obj [("database", Json.str "travel"), ("collection", Json.str "asia"),
    ("pipeline", pipeline)]
  ([SCall.mongoAggregate data], db data)

/-- The two-stage aggregation pipeline built inline by the semantic-search
`lambda_handler` (the test script builds the same shape with a literal
limit of 5). -/
def searchPipeline (queryVector limit : Json) : Json :=
  Json.arr [
    Json.obj [("$vectorSearch", Json.obj [
      ("index", Json.str "vector_index"),
      ("path", Json.str "details_embedding"),
      ("queryVector", queryVector),
      ("numCandidates", Json.num 100),
      ("limit", limit)])],
    Json.obj [("$project", Json.obj [
      ("_id", Json.num 1),
      ("index", Json.num 1),
      ("Place Name", Json.num 1),
      ("score", Json.obj [("$meta", Json.str "vectorSearchScore")])])]]

/-- The body of the semantic-search `lambda_handler` before its outer
except branch. -/
def semanticCore (bedrock : BedrockApi) (db : SearchMongo) (e : Event) :
    List SCall × Except String Response :=
  match e.body with
  | .error e1 => ([], .error e1)
  | .ok body =>
    match body.get "query" with
    | .error e1 => ([], .error e1)
    | .ok query =>
      match body.getD "limit" (Json.num 5) with
      | .error e1 => ([], .error e1)
      | .ok limit =>
        match query with
        | none => ([], .ok ⟨400, jsonError "query parameter is required"⟩)
        | some q =>
          if q.truthy then
            match generate_embedding_result bedrock q with
            | .error e1 => ([SCall.embedModel q], .error e1)
            | .ok queryVector =>
              let p := search_call_mongodb_api db (searchPipeline queryVector limit)
              (SCall.embedModel q :: p.1,
                match p.2 with
                | .error e1 => .error e1
                | .ok result => .ok ⟨200, result⟩)
          else ([], .ok ⟨400, jsonError "query parameter is required"⟩)

/-- `lambda_handler` of the semantic-search service: its outer except
branch returns a bare generic 500 body. -/
def search_lambda_handler (bedrock : BedrockApi) (db : SearchMongo) (e : Event) :
    List SCall × Response :=
  let p := semanticCore bedrock db e
  (p.1, match p.2 with
    | .ok resp => resp
    | .error _ => ⟨500, jsonError "Internal server error"⟩)

/-- Python `float(...)` on a cell value, parameterized by the numeric
string parser (CSV cells are strings; the parser itself is outside the
repository). -/
abbrev FloatParse := String → Except String Rat

/-- `float` applied to a JSON-modelled cell: parse strings, pass numbers
through, booleans are 0 and 1, anything else raises TypeError. -/
def pyFloat (pf : FloatParse) (v : Json) : Except String Rat :=
  match v with
  | .str s => pf s
  | .num q => .ok q
  | .bool b => .ok (if b then 1 else 0)
  | _ => .error "TypeError: float argument"

/-- `float` applied to a list of cells in order, stopping at the first
failure (the importer loop raises out of the script on a bad cell). -/
def pyFloatList (pf : FloatParse) : List Json → Except String (List Rat)
  | [] => .ok []
  | v :: rest =>
    match pyFloat pf v with
    | .error e => .error e
    | .ok q =>
      match pyFloatList pf rest with
      | .error e => .error e
      | .ok qs => .ok (q :: qs)

/-- The column loop of `mdb_import_template.py`: walk the row dict in key
order, accumulating embedding-column values into `emb` and the remaining
columns into `acc` via dict assignment. -/
def importColumns (pf : FloatParse) :
    List (String × Json) → List Rat → List (String × Json) →
    Except String (List Rat × List (String × Json))
  | [], emb, acc => .ok (emb, acc)
  | (column, v) :: rest, emb, acc =>
    if pyStartsWith column "details_embedding" then
      match pyFloat pf v with
      | .error e => .error e
      | .ok q => importColumns pf rest (emb ++ [q]) acc
    else
      importColumns pf rest emb (Json.setKey acc column v)

/-- One iteration of the importer row loop: `row['index'] = index` on the
DictReader row (string cells), then the column loop, then
`new_row['details_embedding'] = detail_embedding`, yielding the document
given to `insert_one`. -/
def processRow (pf : FloatParse) (idx : Nat) (row : List (String × String)) :
    Except String (List (String × Json)) :=
  let row2 := Json.setKey (row.map fun p => (p.1, Json.str p.2)) "index" (Json.num idx)
  match importColumns pf row2 [] [] with
  | .error e => .error e
  | .ok r => .ok (Json.setKey r.2 "details_embedding" (Json.arr (r.1.map Json.num)))

/-- The importer row loop from a given counter value: the counter starts
at `idx` and is incremented by one after each row, whatever the row
holds. -/
def importFrom (pf : FloatParse) (idx : Nat) :
    List (List (String × String)) → Except String (List (List (String × Json)))
  | [] => .ok []
  | row :: rest =>
    match processRow pf idx row with
    | .error e => .error e
    | .ok rec1 =>
      match importFrom pf (idx + 1) rest with
      | .error e => .error e
      | .ok recs => .ok (rec1 :: recs)

/-- The whole import: `index = 1` before the loop, one inserted document
per CSV data row. -/
def importCsv (pf : FloatParse) (rows : List (List (String × String))) :
    Except String (List (List (String × Json))) :=
  importFrom pf 1 rows

/-! Helper lemmas about the association-list operations. -/

theorem lookupKey_append_some (l1 l2 : List (String × Json)) (k : String) (v : Json)
    (h : Json.lookupKey l1 k = some v) : Json.lookupKey (l1 ++ l2) k = some v := by
  induction l1 with
  | nil => simp [Json.lookupKey] at h
  | cons p rest ih =>
    obtain ⟨k1, v1⟩ := p
    rw [List.cons_append]
    by_cases hk : k1 = k
    · simp [Json.lookupKey, hk] at h ⊢
      exact h
    · simp only [Json.lookupKey, hk, if_false] at h ⊢
      exact ih h

theorem lookupKey_append_none (l1 l2 : List (String × Json)) (k : String)
    (h : Json.lookupKey l1 k = none) : Json.lookupKey (l1 ++ l2) k = Json.lookupKey l2 k := by
  induction l1 with
  | nil => rfl
  | cons p rest ih =>
    obtain ⟨k1, v1⟩ := p
    rw [List.cons_append]
    by_cases hk : k1 = k
    · simp [Json.lookupKey, hk] at h
    · simp only [Json.lookupKey, hk, if_false] at h ⊢
      exact ih h

theorem lookupKey_setKey_self (l : List (String × Json)) (k : String) (v : Json) :
    Json.lookupKey (Json.setKey l k v) k = some v := by
  induction l with
  | nil => simp [Json.setKey, Json.lookupKey]
  | cons p rest ih =>
    obtain ⟨k1, v1⟩ := p
    by_cases hk : k1 = k <;> simp only [Json.setKey, hk, if_true, if_false]
    · simp [Json.lookupKey]
    · simp only [Json.lookupKey, hk, if_false]
      exact ih

theorem lookupKey_setKey_ne (l : List (String × Json)) (k1 k : String) (v : Json)
    (h : k1 ≠ k) : Json.lookupKey (Json.setKey l k1 v) k = Json.lookupKey l k := by
  induction l with
  | nil => simp [Json.setKey, Json.lookupKey, h]
  | cons p rest ih =>
    obtain ⟨k2, v2⟩ := p
    by_cases hk : k2 = k1 <;> simp only [Json.setKey, hk, if_true, if_false]
    · simp [Json.lookupKey, h, hk]
    · simp only [Json.lookupKey]
      by_cases hk2 : k2 = k <;> simp [hk2, ih]

theorem lookupKey_filter_pos (l : List (String × Json)) (q : String → Bool) (k : String)
    (h : q k = true) :
    Json.lookupKey (l.filter fun p => q p.1) k = Json.lookupKey l k := by
  induction l with
  | nil => simp
  | cons p rest ih =>
    obtain ⟨k1, v1⟩ := p
    by_cases hk : k1 = k
    · subst hk
      simp [List.filter_cons, h, Json.lookupKey]
    · by_cases hq : q k1 = true <;>
        simp [List.filter_cons, hq, Json.lookupKey, hk, ih]

theorem lookupKey_filter_neg (l : List (String × Json)) (q : String → Bool) (k : String)
    (h : q k = false) :
    Json.lookupKey (l.filter fun p => q p.1) k = none := by
  induction l with
  | nil => simp [Json.lookupKey]
  | cons p rest ih =>
    obtain ⟨k1, v1⟩ := p
    by_cases hk : k1 = k
    · subst hk
      simp [List.filter_cons, h, ih]
    · by_cases hq : q k1 = true <;>
        simp [List.filter_cons, hq, Json.lookupKey, hk, ih]

theorem setKey_of_forall_ne (l : List (String × Json)) (k : String) (v : Json)
    (h : ∀ p ∈ l, p.1 ≠ k) : Json.setKey l k v = l ++ [(k, v)] := by
  induction l with
  | nil => simp [Json.setKey]
  | cons p rest ih =>
    obtain ⟨k1, v1⟩ := p
    have h1 : k1 ≠ k := h (k1, v1) (List.mem_cons_self _ _)
    simp only [Json.setKey, h1, if_false, List.cons_append]
    rw [ih fun p hp => h p (List.mem_cons_of_mem _ hp)]

theorem filter_setKey_neg (l : List (String × Json)) (q : String → Bool) (k : String) (v : Json)
    (h : q k = false) :
    (Json.setKey l k v).filter (fun p => q p.1) = l.filter (fun p => q p.1) := by
  induction l with
  | nil => simp [Json.setKey, List.filter_cons, h]
  | cons p rest ih =>
    obtain ⟨k1, v1⟩ := p
    by_cases hk : k1 = k
    · subst hk
      simp [Json.setKey, List.filter_cons, h]
    · simp [Json.setKey, hk, List.filter_cons, ih]

theorem mem_setKey_self (l : List (String × Json)) (k : String) (v : Json) :
    (k, v) ∈ Json.setKey l k v := by
  induction l with
  | nil => simp [Json.setKey]
  | cons p rest ih =>
    obtain ⟨k1, v1⟩ := p
    by_cases hk : k1 = k <;> simp only [Json.setKey, hk, if_true, if_false]
    · exact List.mem_cons_self _ _
    · exact List.mem_cons_of_mem _ ih

theorem eq_key_or_mem_of_mem_setKey (l : List (String × Json)) (k : String) (v : Json)
    (p : String × Json) (h : p ∈ Json.setKey l k v) : p.1 = k ∨ p ∈ l := by
  induction l with
  | nil =>
    simp [Json.setKey] at h
    left
    rw [h]
  | cons p1 rest ih =>
    obtain ⟨k1, v1⟩ := p1
    by_cases hk : k1 = k <;> simp only [Json.setKey, hk, if_true, if_false] at h
    · rcases List.mem_cons.mp h with h1 | h1
      · left
        rw [h1]
      · right
        exact List.mem_cons_of_mem _ h1
    · rcases List.mem_cons.mp h with h1 | h1
      · right
        rw [h1]
        exact List.mem_cons_self _ _
      · rcases ih h1 with h2 | h2
        · exact Or.inl h2
        · exact Or.inr (List.mem_cons_of_mem _ h2)

theorem lookupKey_of_mem_nodup (l : List (String × Json)) (k : String) (v : Json)
    (hnd : (l.map Prod.fst).Nodup) (h : (k, v) ∈ l) : Json.lookupKey l k = some v := by
  induction l with
  | nil => simp at h
  | cons p rest ih =>
    obtain ⟨k1, v1⟩ := p
    rw [List.map_cons] at hnd
    have hnd2 := List.nodup_cons.mp hnd
    rcases List.mem_cons.mp h with h1 | h1
    · have hk := congrArg Prod.fst h1
      have hv := congrArg Prod.snd h1
      simp only [] at hk hv
      simp [Json.lookupKey, hk.symm, hv]
    · have hk1 : k1 ≠ k := by
        intro hc
        apply hnd2.1
        rw [hc]
        exact List.mem_map.mpr ⟨(k, v), h1, rfl⟩
      simp only [Json.lookupKey, hk1, if_false]
      exact ih hnd2.2 h1

theorem setKey_keys_nodup (l : List (String × Json)) (k : String) (v : Json)
    (hnd : (l.map Prod.fst).Nodup) : ((Json.setKey l k v).map Prod.fst).Nodup := by
  induction l with
  | nil => simp [Json.setKey]
  | cons p rest ih =>
    obtain ⟨k1, v1⟩ := p
    rw [List.map_cons] at hnd
    have hnd2 := List.nodup_cons.mp hnd
    by_cases hk : k1 = k
    · subst hk
      simpa [Json.setKey] using hnd
    · simp only [Json.setKey, hk, if_false, List.map_cons]
      refine List.nodup_cons.mpr ⟨?_, ih hnd2.2⟩
      intro hmem
      rcases List.mem_map.mp hmem with ⟨p2, hp2, hfst⟩
      rcases eq_key_or_mem_of_mem_setKey rest k v p2 hp2 with h1 | h1
      · exact hk (hfst ▸ h1 ▸ rfl)
      · exact hnd2.1 (hfst ▸ List.mem_map.mpr ⟨p2, h1, rfl⟩)

theorem importColumns_eq (pf : FloatParse) (cols : List (String × Json)) (emb : List Rat)
    (acc : List (String × Json))
    (hdisj : ∀ p ∈ cols, ∀ p2 ∈ acc, p2.1 ≠ p.1)
    (hnd : (cols.map Prod.fst).Nodup) :
    importColumns pf cols emb acc =
      match pyFloatList pf
          ((cols.filter fun p => pyStartsWith p.1 "details_embedding").map Prod.snd) with
      | .ok qs =>
        .ok (emb ++ qs, acc ++ cols.filter fun p => !pyStartsWith p.1 "details_embedding")
      | .error e => .error e := by
  induction cols generalizing emb acc with
  | nil => simp [importColumns, pyFloatList]
  | cons p rest ih =>
    obtain ⟨column, v⟩ := p
    rw [List.map_cons] at hnd
    have hnd2 := List.nodup_cons.mp hnd
    have hdisjRest : ∀ p ∈ rest, ∀ p2 ∈ acc, p2.1 ≠ p.1 := fun p hp p2 hp2 =>
      hdisj p (List.mem_cons_of_mem _ hp) p2 hp2
    by_cases hs : pyStartsWith column "details_embedding" = true
    · -- the new column joins the embedding accumulator
      have hR : ((column, v) :: rest).filter (fun p => pyStartsWith p.1 "details_embedding")
          = (column, v) :: rest.filter (fun p => pyStartsWith p.1 "details_embedding") := by
        simp [List.filter_cons, hs]
      have hR2 : ((column, v) :: rest).filter (fun p => !pyStartsWith p.1 "details_embedding")
          = rest.filter (fun p => !pyStartsWith p.1 "details_embedding") := by
        simp [List.filter_cons, hs]
      rw [hR, hR2, List.map_cons]
      cases hv : pyFloat pf v with
      | error e =>
        simp [importColumns, hs, hv, pyFloatList]
      | ok q =>
        have hL : importColumns pf ((column, v) :: rest) emb acc
            = importColumns pf rest (emb ++ [q]) acc := by
          simp [importColumns, hs, hv]
        rw [hL, ih (emb ++ [q]) acc hdisjRest hnd2.2]
        simp only [pyFloatList, hv]
        cases hqs : pyFloatList pf
            ((rest.filter fun p => pyStartsWith p.1 "details_embedding").map Prod.snd) with
        | error e => rfl
        | ok qs => simp
    · have hs2 : pyStartsWith column "details_embedding" = false := by
        simpa using hs
      have hR : ((column, v) :: rest).filter (fun p => pyStartsWith p.1 "details_embedding")
          = rest.filter (fun p => pyStartsWith p.1 "details_embedding") := by
        simp [List.filter_cons, hs2]
      have hR2 : ((column, v) :: rest).filter (fun p => !pyStartsWith p.1 "details_embedding")
          = (column, v) :: rest.filter (fun p => !pyStartsWith p.1 "details_embedding") := by
        simp [List.filter_cons, hs2]
      have hsetk : Json.setKey acc column v = acc ++ [(column, v)] :=
        setKey_of_forall_ne acc column v fun p2 hp2 =>
          hdisj (column, v) (List.mem_cons_self _ _) p2 hp2
      have hdisj2 : ∀ p ∈ rest, ∀ p2 ∈ acc ++ [(column, v)], p2.1 ≠ p.1 := by
        intro p hp p2 hp2
        rcases List.mem_append.mp hp2 with h1 | h1
        · exact hdisjRest p hp p2 h1
        · have hpv : p2 = (column, v) := by simpa using h1
          rw [hpv]
        -- the head key is absent from the tail keys
          intro hc
          exact hnd2.1 (hc ▸ List.mem_map.mpr ⟨p, hp, rfl⟩)
      have hL : importColumns pf ((column, v) :: rest) emb acc
          = importColumns pf rest emb (Json.setKey acc column v) := by
        simp [importColumns, hs2]
      rw [hL, hsetk, ih emb (acc ++ [(column, v)]) hdisj2 hnd2.2, hR, hR2]
      cases hqs : pyFloatList pf
          ((rest.filter fun p => pyStartsWith p.1 "details_embedding").map Prod.snd) with
      | error e => rfl
      | ok qs => simp

theorem filter_key_map_str (row : List (String × String)) (q : String → Bool) :
    (row.map fun p => (p.1, Json.str p.2)).filter (fun p => q p.1)
      = (row.filter fun p => q p.1).map fun p => (p.1, Json.str p.2) := by
  induction row with
  | nil => rfl
  | cons p rest ih =>
    by_cases hq : q p.1 = true <;>
      simp [List.filter_cons, hq, ih]

theorem keys_map_str (row : List (String × String)) :
    ((row.map fun p => (p.1, Json.str p.2)).map Prod.fst) = row.map Prod.fst := by
  induction row with
  | nil => rfl
  | cons p rest ih => simp [ih]

theorem importFrom_spec (pf : FloatParse) (rows : List (List (String × String)))
    (n : Nat) (recs : List (List (String × Json)))
    (h : importFrom pf n rows = .ok recs) :
    recs.length = rows.length ∧
      ∀ i (hi : i < rows.length) (hi2 : i < recs.length),
        processRow pf (n + i) (rows.get ⟨i, hi⟩) = .ok (recs.get ⟨i, hi2⟩) := by
  induction rows generalizing n recs with
  | nil =>
    simp [importFrom] at h
    subst h
    exact ⟨rfl, fun i hi => by simp at hi⟩
  | cons row rest ih =>
    simp only [importFrom] at h
    cases hrow : processRow pf n row with
    | error e => rw [hrow] at h; exact absurd h (by simp)
    | ok rec1 =>
      rw [hrow] at h
      cases hrest : importFrom pf (n + 1) rest with
      | error e => rw [hrest] at h; exact absurd h (by simp)
      | ok recs2 =>
        rw [hrest] at h
        simp only [Except.ok.injEq] at h
        subst h
        obtain ⟨hlen, hget⟩ := ih (n + 1) recs2 hrest
        refine ⟨by simp [hlen], ?_⟩
        intro i hi hi2
        cases i with
        | zero => simpa using hrow
        | succ j =>
          have hj : j < rest.length := by simpa using hi
          have hj2 : j < recs2.length := by simpa using hi2
          have := hget j hj hj2
          simpa [Nat.add_assoc, Nat.add_comm 1 j] using this

theorem addUpdateField_mem (body : Json) (k : String) (u u2 : List (String × Json))
    (h : addUpdateField body k u = .ok u2) :
    ∀ p ∈ u2, p ∈ u ∨ p.1 = k := by
  intro p hp
  cases hm : Json.hasMember k body with
  | error e => rw [addUpdateField, hm] at h; exact absurd h (by simp)
  | ok b =>
    cases b with
    | false =>
      rw [addUpdateField, hm] at h
      simp only [Except.ok.injEq] at h
      subst h
      exact Or.inl hp
    | true =>
      rw [addUpdateField, hm] at h
      cases hv : body.index k with
      | error e => rw [hv] at h; exact absurd h (by simp)
      | ok v =>
        rw [hv] at h
        simp only [Except.ok.injEq] at h
        subst h
        rcases List.mem_append.mp hp with h1 | h1
        · exact Or.inl h1
        · right
          have : p = (k, v) := by simpa using h1
          rw [this]

theorem buildUpdates_keys (body : Json) (us : List (String × Json))
    (h : buildUpdates body = .ok us) :
    ∀ p ∈ us, p.1 = "title" ∨ p.1 = "description" ∨ p.1 = "completed" := by
  intro p hp
  rw [buildUpdates] at h
  cases h1 : addUpdateField body "title" [] with
  | error e => rw [h1] at h; exact absurd h (by simp)
  | ok u1 =>
    simp only [h1] at h
    cases h2 : addUpdateField body "description" u1 with
    | error e => rw [h2] at h; exact absurd h (by simp)
    | ok u2 =>
      simp only [h2] at h
      rcases addUpdateField_mem body "completed" u2 us h p hp with hm | hm
      · rcases addUpdateField_mem body "description" u1 u2 h2 p hm with hm2 | hm2
        · rcases addUpdateField_mem body "title" [] u1 h1 p hm2 with hm3 | hm3
          · simp at hm3
          · exact Or.inl hm3
        · exact Or.inr (Or.inl hm2)
      · exact Or.inr (Or.inr hm)

theorem map_snd_map_str (l : List (String × String)) :
    (l.map fun p => (p.1, Json.str p.2)).map Prod.snd = l.map fun p => Json.str p.2 := by
  induction l with
  | nil => rfl
  | cons p rest ih => simp [ih]

/-! Claim theorems. -/

/-- Claim C1, counterexample: on a GET event whose remote find call raises
an exception with message boom, the todos-service 500 body is not the bare
generic object: it carries a details field holding the exception text, so
the response does leak internal details of the exception. -/
theorem todos_error_body_leaks_details_cex :
    (todos_lambda_handler (fun _ _ => Except.error "boom") "t0"
        ⟨some (Json.str "GET"), none, Except.ok (Json.obj [])⟩).2.body
      = Json.obj [("error", Json.str "Internal server error"), ("details", Json.str "boom")]
    ∧ (todos_lambda_handler (fun _ _ => Except.error "boom") "t0"
        ⟨some (Json.str "GET"), none, Except.ok (Json.obj [])⟩).2.body
      ≠ jsonError "Internal server error" := by
  constructor
  · rfl
  · rw [show (todos_lambda_handler (fun _ _ => Except.error "boom") "t0"
        ⟨some (Json.str "GET"), none, Except.ok (Json.obj [])⟩).2.body
      = Json.obj [("error", Json.str "Internal server error"), ("details", Json.str "boom")]
      from rfl]
    simp [jsonError]

/-- Claim C1, amended: any exception escaping the dispatch yields status
500 in both handlers; the semantic-search body is exactly the generic
error object, while the todos-service body additionally carries a details
field holding the exception message, so the exception text does leak
there. -/
theorem unhandled_exception_500_responses (api : MongoApi) (bedrock : BedrockApi)
    (db : SearchMongo) (now : String) (e1 e2 : Event) (m1 m2 : String)
    (h1 : (todosCore api now e1).2 = Except.error m1)
    (h2 : (semanticCore bedrock db e2).2 = Except.error m2) :
    (todos_lambda_handler api now e1).2
      = ⟨500, Json.obj [("error", Json.str "Internal server error"), ("details", Json.str m1)]⟩
    ∧ (search_lambda_handler bedrock db e2).2 = ⟨500, jsonError "Internal server error"⟩ := by
  constructor
  · simp [todos_lambda_handler, h1]
  · simp [search_lambda_handler, h2]

/-- Claim C1 witness: concrete failing oracles produce the two 500
responses. -/
theorem unhandled_exception_500_responses_witness :
    (todos_lambda_handler (fun _ _ => Except.error "boom") "t0"
        ⟨some (Json.str "GET"), none, Except.ok (Json.obj [])⟩).2
      = ⟨500, Json.obj [("error", Json.str "Internal server error"), ("details", Json.str "boom")]⟩
    ∧ (search_lambda_handler (fun _ => Except.error "bed") (fun _ => Except.ok Json.null)
        ⟨none, none, Except.ok (Json.obj [("query", Json.str "q")])⟩).2
      = ⟨500, jsonError "Internal server error"⟩ :=
  unhandled_exception_500_responses _ _ _ _ _ _ _ _ rfl rfl

/-- Claim C2: when the Bedrock invocation raises, the test-script adapter
returns the placeholder vector and the Lambda adapter propagates the same
failure; when the decoded response carries an embedding item, both return
it; the placeholder is 0.1, 0.2, 0.3 followed by 1533 zeros, of length
1536. -/
theorem embedding_adapter_fallback_vs_propagate (bedrock : BedrockApi) (text : Json) :
    (∀ msg, bedrock text = Except.error msg →
        generate_embedding_test bedrock text = Json.arr (fallbackVector.map Json.num)
        ∧ generate_embedding_result bedrock text = Except.error msg)
    ∧ (∀ kvs v, bedrock text = Except.ok (Json.obj kvs) →
        Json.lookupKey kvs "embedding" = some v →
        generate_embedding_test bedrock text = v
        ∧ generate_embedding_result bedrock text = Except.ok v)
    ∧ fallbackVector = [mkRat 1 10, mkRat 2 10, mkRat 3 10] ++ List.replicate 1533 0
    ∧ fallbackVector.length = 1536 := by
  refine ⟨?_, ?_, rfl, ?_⟩
  · intro msg h
    constructor
    · simp [generate_embedding_test, generate_embedding_result, h]
    · simp [generate_embedding_result, h]
  · intro kvs v h hl
    constructor
    · simp [generate_embedding_test, generate_embedding_result, h, Json.index, hl]
    · simp [generate_embedding_result, h, Json.index, hl]
  · rw [fallbackVector, List.length_append, List.length_replicate]
    rfl

/-- Claim C2 witness: a failing invocation falls back in the test adapter,
and a successful one returns the embedding item in the Lambda adapter. -/
theorem embedding_adapter_fallback_vs_propagate_witness :
    generate_embedding_test (fun _ => Except.error "x") (Json.str "t")
      = Json.arr (fallbackVector.map Json.num)
    ∧ generate_embedding_result (fun _ => Except.ok (Json.obj [("embedding", Json.arr [])]))
        (Json.str "t") = Except.ok (Json.arr []) :=
  ⟨((embedding_adapter_fallback_vs_propagate (fun _ => Except.error "x")
      (Json.str "t")).1 "x" rfl).1,
   ((embedding_adapter_fallback_vs_propagate
      (fun _ => Except.ok (Json.obj [("embedding", Json.arr [])]))
      (Json.str "t")).2.1 [("embedding", Json.arr [])] (Json.arr []) rfl rfl).2⟩

/-- Claim C3, counterexample: a present, non-null description that is
falsy (the number 0) is replaced by the empty string in the inserted
document, not kept as given. -/
theorem create_todo_falsy_description_cex :
    (todos_lambda_handler (fun _ _ => Except.ok (Json.obj [])) "t0"
        ⟨some (Json.str "POST"), none,
          Except.ok (Json.obj [("title", Json.str "a"), ("description", Json.num 0)])⟩).1
      = [("insertOne", Json.obj [("database", Json.str "todos"), ("collection", Json.str "items"),
          ("document", Json.obj [("title", Json.str "a"),
            ("description", Json.str ""),
            ("completed", Json.bool false),
            ("created_at", Json.str "t0"),
            ("updated_at", Json.str "t0")])])]
    ∧ Json.str "" ≠ Json.num 0 :=
  ⟨rfl, by simp⟩

/-- Claim C3, amended: a POST with a non-empty string title issues exactly
one insertOne Operation whose document has completed false and equal
created and updated timestamps; its description is the given description
when that is truthy and the empty string when it is absent or falsy
(null, empty string, false, zero, empty list or dict). -/
theorem create_todo_insert_document_shape (api : MongoApi) (now : String) (e : Event)
    (b : Json) (s : String) (d : Option Json)
    (hm : e.httpMethod = some (Json.str "POST"))
    (hb : e.body = Except.ok b)
    (ht : Json.get b "title" = Except.ok (some (Json.str s)))
    (hs : s ≠ "")
    (hd : Json.get b "description" = Except.ok d) :
    (todos_lambda_handler api now e).1
      = [("insertOne", Json.obj [("database", Json.str "todos"), ("collection", Json.str "items"),
          ("document", Json.obj [("title", Json.str s),
            ("description", pyOr d (Json.str "")),
            ("completed", Json.bool false),
            ("created_at", Json.str now),
            ("updated_at", Json.str now)])])]
    ∧ (∀ v, d = some v → v.truthy = true → pyOr d (Json.str "") = v)
    ∧ (truthyOpt d = false → pyOr d (Json.str "") = Json.str "") := by
  refine ⟨?_, ?_, ?_⟩
  · have htr : (Json.str s).truthy = true := by simp [Json.truthy, hs]
    simp [todos_lambda_handler, todosCore, hm, todosPost, hb, ht, hd, htr,
      create_todo, create_data, call_mongodb_api]
  · intro v hv htr
    simp [pyOr, hv, htr]
  · intro hf
    cases d with
    | none => rfl
    | some v =>
      simp [truthyOpt] at hf
      simp [pyOr, hf]

/-- Claim C3 witness: a concrete create request with a truthy description
issues the expected insertOne document. -/
theorem create_todo_insert_document_shape_witness :
    (todos_lambda_handler (fun _ _ => Except.ok (Json.obj [])) "t0"
        ⟨some (Json.str "POST"), none,
          Except.ok (Json.obj [("title", Json.str "a"), ("description", Json.str "see")])⟩).1
      = [("insertOne", Json.obj [("database", Json.str "todos"), ("collection", Json.str "items"),
          ("document", Json.obj [("title", Json.str "a"),
            ("description", pyOr (some (Json.str "see")) (Json.str "")),
            ("completed", Json.bool false),
            ("created_at", Json.str "t0"),
            ("updated_at", Json.str "t0")])])]
    ∧ (∀ v, (some (Json.str "see") : Option Json) = some v → v.truthy = true →
        pyOr (some (Json.str "see")) (Json.str "") = v)
    ∧ (truthyOpt (some (Json.str "see")) = false →
        pyOr (some (Json.str "see")) (Json.str "") = Json.str "") :=
  create_todo_insert_document_shape _ "t0" _ _ "a" _ rfl rfl rfl (by decide) rfl

/-- Claim C4, counterexample: a CSV column literally named index is not
preserved verbatim: the counter assignment runs before the column copy, so
the produced record holds the counter value 1, not the cell text. -/
theorem import_index_column_overwrite_cex :
    processRow (fun _ => Except.ok 0) 1 [("index", "hello")]
      = Except.ok [("index", Json.num 1), ("details_embedding", Json.arr [])]
    ∧ Json.num 1 ≠ Json.str "hello" :=
  ⟨rfl, by simp⟩

/-- Claim C4, amended: for a row with pairwise distinct column names, every
column that neither starts with the embedding name nor is named index is
preserved verbatim under its original name; a column named index is
overwritten by the counter; the embedding columns are float-parsed in
original column order into the details embedding field; and the importer
processes row i with counter value i plus one, for every row whatever its
content. -/
theorem import_record_shape (pf : FloatParse) :
    (∀ (idx : Nat) (row : List (String × String)) (rec1 : List (String × Json)),
      (row.map Prod.fst).Nodup →
      processRow pf idx row = Except.ok rec1 →
      (∀ k v, (k, v) ∈ row → pyStartsWith k "details_embedding" = false → k ≠ "index" →
        Json.lookupKey rec1 k = some (Json.str v))
      ∧ Json.lookupKey rec1 "index" = some (Json.num idx)
      ∧ ∃ qs, pyFloatList pf
            ((row.filter fun p => pyStartsWith p.1 "details_embedding").map
              fun p => Json.str p.2)
            = Except.ok qs
          ∧ Json.lookupKey rec1 "details_embedding" = some (Json.arr (qs.map Json.num)))
    ∧ (∀ rows recs, importCsv pf rows = Except.ok recs →
        recs.length = rows.length ∧
        ∀ i (hi : i < rows.length) (hi2 : i < recs.length),
          processRow pf (i + 1) (rows.get ⟨i, hi⟩) = Except.ok (recs.get ⟨i, hi2⟩)) := by
  constructor
  · intro idx row rec1 hnd hrun
    have hndJ : ((row.map fun p => (p.1, Json.str p.2)).map Prod.fst).Nodup := by
      rw [keys_map_str]
      exact hnd
    have hnd2 : ((Json.setKey (row.map fun p => (p.1, Json.str p.2)) "index"
        (Json.num idx)).map Prod.fst).Nodup := setKey_keys_nodup _ _ _ hndJ
    simp only [processRow] at hrun
    rw [importColumns_eq pf _ [] [] (fun p hp p2 hp2 => absurd hp2 (List.not_mem_nil p2)) hnd2]
      at hrun
    have hembfilter : (Json.setKey (row.map fun p => (p.1, Json.str p.2)) "index"
          (Json.num idx)).filter (fun p => pyStartsWith p.1 "details_embedding")
        = (row.filter fun p => pyStartsWith p.1 "details_embedding").map
            fun p => (p.1, Json.str p.2) := by
      rw [filter_setKey_neg _ (fun s => pyStartsWith s "details_embedding") _ _ (by decide)]
      exact filter_key_map_str row (fun s => pyStartsWith s "details_embedding")
    rw [hembfilter, map_snd_map_str] at hrun
    cases hqs : pyFloatList pf
        ((row.filter fun p => pyStartsWith p.1 "details_embedding").map
          fun p => Json.str p.2) with
    | error e =>
      rw [hqs] at hrun
      simp at hrun
    | ok qs =>
      rw [hqs] at hrun
      simp only [List.nil_append, Except.ok.injEq] at hrun
      subst hrun
      refine ⟨?_, ?_, qs, rfl, ?_⟩
      · intro k v hmem hsw hki
        have hne1 : "details_embedding" ≠ k := by
          intro hc
          rw [← hc] at hsw
          exact absurd hsw (by decide)
        rw [lookupKey_setKey_ne _ _ _ _ hne1]
        have hstep2 := lookupKey_filter_pos
          (Json.setKey (row.map fun p => (p.1, Json.str p.2)) "index" (Json.num idx))
          (fun s => !pyStartsWith s "details_embedding") k (by simp [hsw])
        rw [hstep2, lookupKey_setKey_ne _ _ _ _ (Ne.symm hki)]
        exact lookupKey_of_mem_nodup _ k (Json.str v) hndJ (List.mem_map.mpr ⟨(k, v), hmem, rfl⟩)
      · rw [lookupKey_setKey_ne _ _ _ _ (by decide : "details_embedding" ≠ "index")]
        have hstep2 := lookupKey_filter_pos
          (Json.setKey (row.map fun p => (p.1, Json.str p.2)) "index" (Json.num idx))
          (fun s => !pyStartsWith s "details_embedding") "index" (by decide)
        rw [hstep2, lookupKey_setKey_self]
      · exact lookupKey_setKey_self _ _ _
  · intro rows recs h
    obtain ⟨hlen, hget⟩ := importFrom_spec pf rows 1 recs h
    refine ⟨hlen, ?_⟩
    intro i hi hi2
    have hpr := hget i hi hi2
    rwa [Nat.add_comm 1 i] at hpr

/-- Claim C4 witness: on a concrete three-column row the plain columns
survive under their names and the counter is attached as 1. -/
theorem import_record_shape_witness :
    Json.lookupKey [("a", Json.str "x"), ("b", Json.str "y"), ("index", Json.num 1),
        ("details_embedding", Json.arr [Json.num 7])] "a" = some (Json.str "x")
    ∧ Json.lookupKey [("a", Json.str "x"), ("b", Json.str "y"), ("index", Json.num 1),
        ("details_embedding", Json.arr [Json.num 7])] "index" = some (Json.num 1) :=
  ⟨(((import_record_shape (fun _ => Except.ok 7)).1 1
      [("a", "x"), ("details_embedding_0", "p"), ("b", "y")]
      [("a", Json.str "x"), ("b", Json.str "y"), ("index", Json.num 1),
        ("details_embedding", Json.arr [Json.num 7])]
      (by decide) rfl).1 "a" "x" (by decide) (by decide) (by decide)),
   (((import_record_shape (fun _ => Except.ok 7)).1 1
      [("a", "x"), ("details_embedding_0", "p"), ("b", "y")]
      [("a", Json.str "x"), ("b", Json.str "y"), ("index", Json.num 1),
        ("details_embedding", Json.arr [Json.num 7])]
      (by decide) rfl).2.1)⟩

/-- Claim C5: a PUT request with a truthy id whose body has none of the
keys title, description, completed is answered 400 with the no-fields
error body, and no remote call is recorded. -/
theorem put_no_recognized_fields_400 (api : MongoApi) (now : String) (e : Event)
    (tid b : Json)
    (hm : e.httpMethod = some (Json.str "PUT"))
    (hid : Json.get (pathParams e) "id" = Except.ok (some tid))
    (htr : tid.truthy = true)
    (hb : e.body = Except.ok b)
    (h1 : Json.hasMember "title" b = Except.ok false)
    (h2 : Json.hasMember "description" b = Except.ok false)
    (h3 : Json.hasMember "completed" b = Except.ok false) :
    todos_lambda_handler api now e = ([], ⟨400, jsonError "No fields to update"⟩) := by
  simp [todos_lambda_handler, todosCore, hm, todosPut, hid, htr, hb, buildUpdates,
    addUpdateField, h1, h2, h3]

/-- Claim C5 witness: an empty update body on PUT /todos/123. -/
theorem put_no_recognized_fields_400_witness :
    todos_lambda_handler (fun _ _ => Except.ok Json.null) "t0"
        ⟨some (Json.str "PUT"), some (Json.obj [("id", Json.str "123")]),
          Except.ok (Json.obj [])⟩
      = ([], ⟨400, jsonError "No fields to update"⟩) :=
  put_no_recognized_fields_400 _ _ _ _ _ rfl rfl rfl rfl rfl rfl rfl

/-- Claim C6: a PUT or DELETE request whose path parameters carry no id is
answered 400 with the id-required error body, and no remote call is
recorded. -/
theorem put_delete_missing_id_400 (api : MongoApi) (now : String) (e : Event)
    (hm : e.httpMethod = some (Json.str "PUT") ∨ e.httpMethod = some (Json.str "DELETE"))
    (hid : Json.get (pathParams e) "id" = Except.ok none) :
    todos_lambda_handler api now e = ([], ⟨400, jsonError "todo id is required"⟩) := by
  rcases hm with hm | hm
  · simp [todos_lambda_handler, todosCore, hm, todosPut, hid]
  · simp [todos_lambda_handler, todosCore, hm, todosDelete, hid]

/-- Claim C6 witness: a DELETE with no path parameters. -/
theorem put_delete_missing_id_400_witness :
    todos_lambda_handler (fun _ _ => Except.ok Json.null) "t0"
        ⟨some (Json.str "DELETE"), none, Except.ok (Json.obj [])⟩
      = ([], ⟨400, jsonError "todo id is required"⟩) :=
  put_delete_missing_id_400 _ _ _ (Or.inr rfl) rfl

/-- Claim C7: a search body without a query key, or with an empty-string
query, is answered 400 with the query-required error body and neither the
embedding model nor the database is called; and when a truthy query is
present but no limit key is, the pipeline handed to the aggregate call
uses the default limit 5. -/
theorem search_query_required_and_limit_default (bedrock : BedrockApi) (db : SearchMongo)
    (e : Event) (b : Json)
    (hb : e.body = Except.ok b) :
    ((Json.get b "query" = Except.ok none ∨ Json.get b "query" = Except.ok (some (Json.str ""))) →
       search_lambda_handler bedrock db e = ([], ⟨400, jsonError "query parameter is required"⟩))
    ∧ (∀ q V, Json.get b "query" = Except.ok (some q) → q.truthy = true →
        Json.get b "limit" = Except.ok none →
        generate_embedding_result bedrock q = Except.ok V →
        (search_lambda_handler bedrock db e).1
          = [SCall.embedModel q,
             SCall.mongoAggregate (Json.obj [("database", Json.str "travel"),
               ("collection", Json.str "asia"),
               ("pipeline", searchPipeline V (Json.num 5))])]) := by
  constructor
  · intro hq
    rcases hq with hq | hq
    · cases b with
      | obj kvs => simp [search_lambda_handler, semanticCore, hb, hq, Json.getD]
      | null => simp [Json.get] at hq
      | bool x => simp [Json.get] at hq
      | num x => simp [Json.get] at hq
      | str x => simp [Json.get] at hq
      | arr x => simp [Json.get] at hq
    · cases b with
      | obj kvs => simp [search_lambda_handler, semanticCore, hb, hq, Json.getD, Json.truthy]
      | null => simp [Json.get] at hq
      | bool x => simp [Json.get] at hq
      | num x => simp [Json.get] at hq
      | str x => simp [Json.get] at hq
      | arr x => simp [Json.get] at hq
  · intro q V hq htr hlim hemb
    cases b with
    | obj kvs =>
      have hlk : Json.lookupKey kvs "limit" = none := by
        simpa [Json.get] using hlim
      simp [search_lambda_handler, semanticCore, hb, hq, htr, hemb, Json.getD, hlk,
        search_call_mongodb_api]
    | null => simp [Json.get] at hq
    | bool x => simp [Json.get] at hq
    | num x => simp [Json.get] at hq
    | str x => simp [Json.get] at hq
    | arr x => simp [Json.get] at hq

/-- Claim C7 witness: the body with only a limit is rejected without any
call, and a query without a limit runs the pipeline with limit 5. -/
theorem search_query_required_and_limit_default_witness :
    search_lambda_handler (fun _ => Except.error "unused") (fun _ => Except.ok Json.null)
        ⟨none, none, Except.ok (Json.obj [("limit", Json.num 5)])⟩
      = ([], ⟨400, jsonError "query parameter is required"⟩)
    ∧ (search_lambda_handler (fun _ => Except.ok (Json.obj [("embedding", Json.arr [Json.num 1])]))
        (fun _ => Except.ok Json.null)
        ⟨none, none, Except.ok (Json.obj [("query", Json.str "q")])⟩).1
      = [SCall.embedModel (Json.str "q"),
         SCall.mongoAggregate (Json.obj [("database", Json.str "travel"),
           ("collection", Json.str "asia"),
           ("pipeline", searchPipeline (Json.arr [Json.num 1]) (Json.num 5))])] :=
  ⟨(search_query_required_and_limit_default (fun _ => Except.error "unused")
      (fun _ => Except.ok Json.null)
      ⟨none, none, Except.ok (Json.obj [("limit", Json.num 5)])⟩
      (Json.obj [("limit", Json.num 5)]) rfl).1 (Or.inl rfl),
   (search_query_required_and_limit_default
      (fun _ => Except.ok (Json.obj [("embedding", Json.arr [Json.num 1])]))
      (fun _ => Except.ok Json.null)
      ⟨none, none, Except.ok (Json.obj [("query", Json.str "q")])⟩
      (Json.obj [("query", Json.str "q")]) rfl).2
     (Json.str "q") (Json.arr [Json.num 1]) rfl rfl rfl rfl⟩

/-- Claim C8: whenever the semantic-search handler reaches the database,
the aggregate payload carries exactly the two pipeline stages in order: a
vector search stage holding the named index, the vector field path, the
query vector, the candidate pool size 100 and the request limit, then a
projection stage keeping the id, index and place name fields and
attaching the similarity score through the vector search score meta
field. -/
theorem search_pipeline_two_stages (bedrock : BedrockApi) (db : SearchMongo)
    (e : Event) (b q V L : Json)
    (hb : e.body = Except.ok b)
    (hq : Json.get b "query" = Except.ok (some q))
    (htr : q.truthy = true)
    (hlim : Json.getD b "limit" (Json.num 5) = Except.ok L)
    (hemb : generate_embedding_result bedrock q = Except.ok V) :
    (search_lambda_handler bedrock db e).1
      = [SCall.embedModel q,
         SCall.mongoAggregate (Json.obj [("database", Json.str "travel"),
          ("collection", Json.str "asia"),
          ("pipeline", Json.arr [
            Json.obj [("$vectorSearch", Json.obj [
              ("index", Json.str "vector_index"),
              ("path", Json.str "details_embedding"),
              ("queryVector", V),
              ("numCandidates", Json.num 100),
              ("limit", L)])],
            Json.obj [("$project", Json.obj [
              ("_id", Json.num 1),
              ("index", Json.num 1),
              ("Place Name", Json.num 1),
              ("score", Json.obj [("$meta", Json.str "vectorSearchScore")])])]])])] := by
  simp [search_lambda_handler, semanticCore, hb, hq, htr, hlim, hemb,
    search_call_mongodb_api, searchPipeline]

/-- Claim C8 witness: a concrete query with limit 3 produces the two-stage
pipeline verbatim. -/
theorem search_pipeline_two_stages_witness :
    (search_lambda_handler (fun _ => Except.ok (Json.obj [("embedding", Json.arr [Json.num 1])]))
        (fun _ => Except.ok Json.null)
        ⟨none, none, Except.ok (Json.obj [("query", Json.str "q"), ("limit", Json.num 3)])⟩).1
      = [SCall.embedModel (Json.str "q"),
         SCall.mongoAggregate (Json.obj [("database", Json.str "travel"),
          ("collection", Json.str "asia"),
          ("pipeline", Json.arr [
            Json.obj [("$vectorSearch", Json.obj [
              ("index", Json.str "vector_index"),
              ("path", Json.str "details_embedding"),
              ("queryVector", Json.arr [Json.num 1]),
              ("numCandidates", Json.num 100),
              ("limit", Json.num 3)])],
            Json.obj [("$project", Json.obj [
              ("_id", Json.num 1),
              ("index", Json.num 1),
              ("Place Name", Json.num 1),
              ("score", Json.obj [("$meta", Json.str "vectorSearchScore")])])]])])] :=
  search_pipeline_two_stages _ _ _ _ _ _ _ rfl rfl rfl rfl rfl

/-- Claim C9: a PUT that reaches the database issues exactly one updateOne
Operation; the dollar-set document is the caller-supplied updates with an
updated timestamp binding appended, it always contains the updated
timestamp, and it never touches the creation timestamp. -/
theorem update_refreshes_updated_at (api : MongoApi) (now : String) (e : Event)
    (tid b : Json) (us : List (String × Json))
    (hm : e.httpMethod = some (Json.str "PUT"))
    (hid : Json.get (pathParams e) "id" = Except.ok (some tid))
    (htr : tid.truthy = true)
    (hb : e.body = Except.ok b)
    (hus : buildUpdates b = Except.ok us)
    (hne : us ≠ []) :
    (todos_lambda_handler api now e).1 = [("updateOne", update_data now tid us)]
    ∧ Json.setKey us "updated_at" (Json.str now) = us ++ [("updated_at", Json.str now)]
    ∧ ("updated_at", Json.str now) ∈ Json.setKey us "updated_at" (Json.str now)
    ∧ ∀ v, ("created_at", v) ∉ Json.setKey us "updated_at" (Json.str now) := by
  have hkeys := buildUpdates_keys b us hus
  have happ : Json.setKey us "updated_at" (Json.str now)
      = us ++ [("updated_at", Json.str now)] := by
    apply setKey_of_forall_ne
    intro p hp
    rcases hkeys p hp with h | h | h <;> simp [h]
  refine ⟨?_, happ, mem_setKey_self us _ _, ?_⟩
  · cases us with
    | nil => exact absurd rfl hne
    | cons u us2 =>
      simp [todos_lambda_handler, todosCore, hm, todosPut, hid, htr, hb, hus,
        update_todo, call_mongodb_api]
  · intro v hv
    rcases eq_key_or_mem_of_mem_setKey us "updated_at" (Json.str now) ("created_at", v) hv
      with h | h
    · simp at h
    · rcases hkeys _ h with h2 | h2 | h2 <;> simp at h2

/-- Claim C9 witness: updating only the completed flag sends a
dollar-set carrying that flag plus the refreshed updated timestamp and no
creation timestamp. -/
theorem update_refreshes_updated_at_witness :
    (todos_lambda_handler
        (fun _ _ => Except.ok (Json.obj [("modifiedCount", Json.num 1)])) "t0"
        ⟨some (Json.str "PUT"), some (Json.obj [("id", Json.str "123")]),
          Except.ok (Json.obj [("completed", Json.bool true)])⟩).1
      = [("updateOne", update_data "t0" (Json.str "123") [("completed", Json.bool true)])]
    ∧ Json.setKey [("completed", Json.bool true)] "updated_at" (Json.str "t0")
        = [("completed", Json.bool true)] ++ [("updated_at", Json.str "t0")]
    ∧ ("updated_at", Json.str "t0")
        ∈ Json.setKey [("completed", Json.bool true)] "updated_at" (Json.str "t0") := by
  have h := update_refreshes_updated_at
    (fun _ _ => Except.ok (Json.obj [("modifiedCount", Json.num 1)])) "t0"
    ⟨some (Json.str "PUT"), some (Json.obj [("id", Json.str "123")]),
      Except.ok (Json.obj [("completed", Json.bool true)])⟩
    (Json.str "123") (Json.obj [("completed", Json.bool true)])
    [("completed", Json.bool true)] rfl rfl rfl rfl rfl (by simp)
  exact ⟨h.1, h.2.1, h.2.2.1⟩

/-- Claim C10: an update whose remote response is an object with the
modified count absent or zero is answered 404 with the not-found error
body, even though the todo may exist and have been matched; a delete whose
response has the deleted count absent or zero is answered 404 the same
way. -/
theorem modified_deleted_zero_404 (api : MongoApi) (now : String) :
    (∀ (e : Event) (tid b : Json) (us kvs : List (String × Json)),
      e.httpMethod = some (Json.str "PUT") →
      Json.get (pathParams e) "id" = Except.ok (some tid) →
      tid.truthy = true →
      e.body = Except.ok b →
      buildUpdates b = Except.ok us →
      us ≠ [] →
      api "updateOne" (update_data now tid us) = Except.ok (Json.obj kvs) →
      (Json.lookupKey kvs "modifiedCount" = none ∨
        Json.lookupKey kvs "modifiedCount" = some (Json.num 0)) →
      (todos_lambda_handler api now e).2 = ⟨404, jsonError "Todo not found"⟩)
    ∧ (∀ (e : Event) (tid : Json) (kvs : List (String × Json)),
      e.httpMethod = some (Json.str "DELETE") →
      Json.get (pathParams e) "id" = Except.ok (some tid) →
      tid.truthy = true →
      api "deleteOne" (delete_data tid) = Except.ok (Json.obj kvs) →
      (Json.lookupKey kvs "deletedCount" = none ∨
        Json.lookupKey kvs "deletedCount" = some (Json.num 0)) →
      (todos_lambda_handler api now e).2 = ⟨404, jsonError "Todo not found"⟩) := by
  constructor
  · intro e tid b us kvs hm hid htr hb hus hne hapi hmc
    cases us with
    | nil => exact absurd rfl hne
    | cons u us2 =>
      rcases hmc with hmc | hmc <;>
        simp [todos_lambda_handler, todosCore, hm, todosPut, hid, htr, hb, hus,
          update_todo, call_mongodb_api, hapi, Json.getD, hmc, gtZero]
  · intro e tid kvs hm hid htr hapi hdc
    rcases hdc with hdc | hdc <;>
      simp [todos_lambda_handler, todosCore, hm, todosDelete, hid, htr,
        delete_todo, call_mongodb_api, hapi, Json.getD, hdc, gtZero]

/-- Claim C10 witness: a matched-but-unmodified update (modified count 0)
and a delete whose response lacks a deleted count are both answered
404. -/
theorem modified_deleted_zero_404_witness :
    (todos_lambda_handler
        (fun ep _ => if ep = "updateOne"
          then Except.ok (Json.obj [("modifiedCount", Json.num 0)])
          else Except.ok (Json.obj [])) "t0"
        ⟨some (Json.str "PUT"), some (Json.obj [("id", Json.str "123")]),
          Except.ok (Json.obj [("completed", Json.bool true)])⟩).2
      = ⟨404, jsonError "Todo not found"⟩
    ∧ (todos_lambda_handler
        (fun ep _ => if ep = "updateOne"
          then Except.ok (Json.obj [("modifiedCount", Json.num 0)])
          else Except.ok (Json.obj [])) "t0"
        ⟨some (Json.str "DELETE"), some (Json.obj [("id", Json.str "123")]),
          Except.ok (Json.obj [])⟩).2
      = ⟨404, jsonError "Todo not found"⟩ :=
  ⟨(modified_deleted_zero_404
      (fun ep _ => if ep = "updateOne"
        then Except.ok (Json.obj [("modifiedCount", Json.num 0)])
        else Except.ok (Json.obj [])) "t0").1
     ⟨some (Json.str "PUT"), some (Json.obj [("id", Json.str "123")]),
       Except.ok (Json.obj [("completed", Json.bool true)])⟩
     (Json.str "123") (Json.obj [("completed", Json.bool true)])
     [("completed", Json.bool true)] [("modifiedCount", Json.num 0)]
     rfl rfl rfl rfl rfl (by simp) rfl (Or.inr rfl),
   (modified_deleted_zero_404
      (fun ep _ => if ep = "updateOne"
        then Except.ok (Json.obj [("modifiedCount", Json.num 0)])
        else Except.ok (Json.obj [])) "t0").2
     ⟨some (Json.str "DELETE"), some (Json.obj [("id", Json.str "123")]),
       Except.ok (Json.obj [])⟩
     (Json.str "123") []
     rfl rfl rfl rfl (Or.inl rfl)⟩
